import Mathlib

/-!
Verification of the MP3-to-WAV clip splitter (`mp3_to_wav_splitter.py`).

The script validates its input path, creates the output directory, decodes the
audio with an external library, partitions the decoded sample buffer into
fixed-length clips (zero-padding the final one), and writes each clip to a WAV
file.  The partitioning arithmetic is embedded directly; the external decode
and encode calls, and the filesystem, are modelled by an explicit event trace:
the decoded buffer is an input of the model, and every directory creation,
decode and file write the script performs is recorded as an `Event` in order.
-/

namespace Mp3Splitter

/-- Decoded audio samples.  The source works with mono floating-point samples;
no arithmetic is ever performed on sample values (they are only sliced, copied
and compared with the zero padding), so they are modelled as rationals. -/
abbrev Sample := ℚ

/-- Line 63 of `mp3_to_wav_splitter.py`:
`samples_per_clip = int(clip_duration * sample_rate)` (both factors are
non-negative integers, so the product is exact). -/
def samples_per_clip (clip_duration sample_rate : ℕ) : ℕ :=
  clip_duration * sample_rate

/-- Line 67: `num_clips = int(np.ceil(total_samples / samples_per_clip))`,
the integer ceiling of the division, written with the standard natural-number
ceiling-division formula. -/
def num_clips (total_samples spc : ℕ) : ℕ :=
  (total_samples + spc - 1) / spc

/-- Lines 77-81: `start_sample = i * samples_per_clip`,
`end_sample = min((i + 1) * samples_per_clip, total_samples)`,
`clip_data = audio_data[start_sample:end_sample]` — the raw (unpadded) slice
of clip `i`. -/
def clip_raw (audio : List Sample) (spc i : ℕ) : List Sample :=
  (audio.drop (i * spc)).take spc

/-- Lines 84-86: pad the clip with zeros when it is shorter than
`samples_per_clip`:
`if len(clip_data) < samples_per_clip: clip_data = np.pad(clip_data, (0, padding_length), constant_values=0)`. -/
def clip_data (audio : List Sample) (spc i : ℕ) : List Sample :=
  if (clip_raw audio spc i).length < spc then
    clip_raw audio spc i ++ List.replicate (spc - (clip_raw audio spc i).length) 0
  else
    clip_raw audio spc i

/-- The format specifier `{n:03d}` of line 89: the decimal digits of `n`,
left-padded with the character '0' to a minimum width of 3. -/
def zfill3 (n : ℕ) : String :=
  let s := toString n
  if s.length < 3 then String.mk (List.replicate (3 - s.length) '0') ++ s else s

/-- The `str.lower()` call of line 47, character by character (ASCII letters;
the extensions compared against are ASCII). -/
def str_lower (s : String) : String :=
  String.mk (s.data.map Char.toLower)

/-- Line 89: `clip_filename = f"{base_filename}_clip_{i+1:03d}.wav"`, where
`i` is the 0-based clip index. -/
def clip_filename (base : String) (i : ℕ) : String :=
  base ++ "_clip_" ++ zfill3 (i + 1) ++ ".wav"

/-- Lines 67 and 76-86 taken together: the full ordered sequence of padded
clips produced by the splitting loop. -/
def partition_clips (audio : List Sample) (spc : ℕ) : List (List Sample) :=
  (List.range (num_clips audio.length spc)).map (clip_data audio spc)

/-- A side effect of the script on the world, in the order it is performed:
`output_path.mkdir(parents=True, exist_ok=True)` (line 52), the
`librosa.load` decode (line 56), and each `sf.write` (line 93). -/
inductive Event : Type where
  | mkdirParents (dir : String)
  | decodeAudio (path : String)
  | writeWav (path : String) (data : List Sample)
deriving DecidableEq

/-- The exceptions the function can raise: `FileNotFoundError` (line 45,
the spec's `InvalidInputError`), `ValueError` (line 48, the spec's
`UnsupportedFormatError`), and a failure of an unguarded `sf.write`
(line 93, the spec's `EncodeError`). -/
inductive SplitError : Type where
  | fileNotFoundError
  | valueError
  | encodeError
deriving DecidableEq

/-- Lines 76-94, the writing loop over the clip indices: for each index,
build the clip path, write the padded clip (recorded as an event) and append
the path to `created_files`.  `encFail i = true` models the external
`sf.write` for clip `i` raising; the write is unguarded, so the loop aborts
there with the error and the events of the earlier iterations stand. -/
def write_clips (audio : List Sample) (spc : ℕ) (output_dir base : String)
    (encFail : ℕ → Bool) : List ℕ → List Event × Except SplitError (List String)
  | [] => ([], Except.ok [])
  | i :: rest =>
      if encFail i then ([], Except.error SplitError.encodeError)
      else
        let clip_path := output_dir ++ "/" ++ clip_filename base i
        let r := write_clips audio spc output_dir base encFail rest
        (Event.writeWav clip_path (clip_data audio spc i) :: r.1,
          r.2.map (fun created => clip_path :: created))

/-- Lines 43-100, `convert_mp3_to_wav_clips`: validate existence (line 44)
and extension (line 47), create the output directory (line 52), decode
(line 56), then split and write every clip (lines 63-94), returning
`created_files`.  `input_exists` models `input_path.exists()`; `ext` models
`input_path.suffix`; `base` models `input_path.stem`; `audio` is the buffer
returned by the external decoder; `encFail` models which `sf.write` calls
fail.  The result is the ordered event trace paired with either the raised
exception or the returned list of created file paths. -/
def convert_mp3_to_wav_clips (input_exists : Bool) (ext input_file : String)
    (audio : List Sample) (output_dir : String)
    (clip_duration sample_rate : ℕ) (base : String) (encFail : ℕ → Bool) :
    List Event × Except SplitError (List String) :=
  if input_exists = false then
    ([], Except.error SplitError.fileNotFoundError)
  else if str_lower ext ≠ ".mp3" then
    ([], Except.error SplitError.valueError)
  else
    let spc := samples_per_clip clip_duration sample_rate
    let r := write_clips audio spc output_dir base encFail
      (List.range (num_clips audio.length spc))
    (Event.mkdirParents output_dir :: Event.decodeAudio input_file :: r.1, r.2)

/-- The spec's own formula for the number of clips, written with the
mathematical ceiling of the exact division: `clipCount = ceil(L / sampleCount)`. -/
def specClipCount (L spc : ℕ) : ℕ := ⌈(L : ℚ) / (spc : ℚ)⌉₊

section PartitionLemmas

lemma clip_raw_length (audio : List Sample) (spc i : ℕ) :
    (clip_raw audio spc i).length = min spc (audio.length - i * spc) := by
  simp [clip_raw]

lemma clip_data_eq (audio : List Sample) (spc i : ℕ) :
    clip_data audio spc i =
      clip_raw audio spc i ++
        List.replicate (spc - (clip_raw audio spc i).length) 0 := by
  unfold clip_data
  by_cases h : (clip_raw audio spc i).length < spc
  · simp [h]
  · simp [h, Nat.sub_eq_zero_of_le (le_of_not_lt h)]

lemma num_clips_zero (spc : ℕ) (hspc : 0 < spc) : num_clips 0 spc = 0 := by
  unfold num_clips
  exact Nat.div_eq_of_lt (by omega)

lemma num_clips_pos_eq (L spc : ℕ) (hL : 0 < L) (hspc : 0 < spc) :
    num_clips L spc = (L - 1) / spc + 1 := by
  unfold num_clips
  have h : L + spc - 1 = (L - 1) + spc := by omega
  rw [h, Nat.add_div_right _ hspc]

lemma num_clips_eq_ceil (L spc : ℕ) (hspc : 0 < spc) :
    num_clips L spc = ⌈(L : ℚ) / (spc : ℚ)⌉₊ := by
  have hq : (0 : ℚ) < (spc : ℚ) := by exact_mod_cast hspc
  refine le_antisymm ?_ ?_
  · rcases Nat.eq_zero_or_pos (num_clips L spc) with h0 | hpos
    · exact h0 ▸ Nat.zero_le _
    · have hub : num_clips L spc * spc ≤ L + spc - 1 := Nat.div_mul_le_self _ _
      have hsp : spc ≤ num_clips L spc * spc := Nat.le_mul_of_pos_left spc hpos
      have hsub : (num_clips L spc - 1) * spc = num_clips L spc * spc - 1 * spc :=
        Nat.sub_mul _ _ _
      have hlt : (num_clips L spc - 1) * spc < L := by omega
      have hcast : ((num_clips L spc - 1 : ℕ) : ℚ) < (L : ℚ) / (spc : ℚ) := by
        rw [lt_div_iff₀ hq]
        exact_mod_cast hlt
      have := Nat.lt_ceil.mpr hcast
      omega
  · have h1 : L + spc - 1 < (L + spc - 1) / spc * spc + spc := Nat.lt_div_mul_add hspc
    have hle : L ≤ num_clips L spc * spc := by unfold num_clips; omega
    refine Nat.ceil_le.mpr ?_
    rw [div_le_iff₀ hq]
    exact_mod_cast hle

lemma num_clips_step (L spc : ℕ) (hspc : 0 < spc) (hL : 0 < L) :
    num_clips L spc = num_clips (L - spc) spc + 1 := by
  rcases le_or_lt L spc with h | h
  · have h0 : L - spc = 0 := by omega
    rw [h0, num_clips_zero spc hspc]
    unfold num_clips
    exact Nat.div_eq_of_lt_le (by omega) (by omega)
  · rw [num_clips_pos_eq L spc hL hspc,
      num_clips_pos_eq (L - spc) spc (by omega) hspc]
    have h2 : L - 1 = (L - spc - 1) + spc := by omega
    rw [h2, Nat.add_div_right _ hspc]

lemma clip_raw_succ (audio : List Sample) (spc i : ℕ) :
    clip_raw audio spc (i + 1) = clip_raw (audio.drop spc) spc i := by
  unfold clip_raw
  rw [List.drop_drop]
  congr 2
  ring

lemma clip_data_succ (audio : List Sample) (spc i : ℕ) :
    clip_data audio spc (i + 1) = clip_data (audio.drop spc) spc i := by
  unfold clip_data
  rw [clip_raw_succ]

/-- Concatenating all padded clips reproduces the buffer followed by the
zero padding that fills the final clip. -/
lemma flatten_partition (spc : ℕ) (hspc : 0 < spc) :
    ∀ (n : ℕ) (audio : List Sample), num_clips audio.length spc = n →
      ((List.range n).map (clip_data audio spc)).flatten
        = audio ++ List.replicate (n * spc - audio.length) 0 := by
  intro n
  induction n with
  | zero =>
      intro audio h
      have hlen : audio.length = 0 := by
        unfold num_clips at h
        have := (Nat.div_eq_zero_iff hspc).mp h
        omega
      have hnil : audio = [] := List.eq_nil_of_length_eq_zero hlen
      subst hnil
      simp
  | succ n ih =>
      intro audio h
      have hL : 0 < audio.length := by
        by_contra hc
        have h0 : audio.length = 0 := by omega
        rw [h0, num_clips_zero spc hspc] at h
        omega
      have hstep := num_clips_step audio.length spc hspc hL
      have hn : num_clips (audio.drop spc).length spc = n := by
        rw [List.length_drop]
        omega
      have hcomp :
          (List.range n).map (clip_data audio spc ∘ Nat.succ)
            = (List.range n).map (clip_data (audio.drop spc) spc) := by
        refine List.map_congr_left ?_
        intro i _
        exact clip_data_succ audio spc i
      rw [List.range_succ_eq_map, List.map_cons, List.map_map, hcomp,
        List.flatten_cons, ih (audio.drop spc) hn]
      have hmul : (n + 1) * spc = n * spc + spc := by ring
      have hraw0 : clip_raw audio spc 0 = audio.take spc := by
        unfold clip_raw
        simp
      rcases le_or_lt spc audio.length with hge | hlt
      · have hlenraw : (clip_raw audio spc 0).length = spc := by
          rw [clip_raw_length]
          omega
        rw [clip_data_eq, hlenraw, Nat.sub_self, List.replicate_zero,
          List.append_nil, hraw0, ← List.append_assoc, List.take_append_drop]
        congr 1
        congr 1
        rw [List.length_drop]
        omega
      · have hone : num_clips audio.length spc = 1 := by
          rw [num_clips_pos_eq audio.length spc hL hspc,
            Nat.div_eq_of_lt (by omega)]
        have hn0 : n = 0 := by omega
        subst hn0
        have hdrop : audio.drop spc = [] := List.drop_eq_nil_of_le (by omega)
        have hlenraw : (clip_raw audio spc 0).length = audio.length := by
          rw [clip_raw_length]
          omega
        rw [clip_data_eq, hlenraw, hraw0, List.take_of_length_le (by omega), hdrop]
        simp

/-- The writing loop on a list of indices on which no `sf.write` fails:
one write event per index, in order, and the matching manifest. -/
lemma write_clips_ok (audio : List Sample) (spc : ℕ) (output_dir base : String)
    (encFail : ℕ → Bool) :
    ∀ l : List ℕ, (∀ j ∈ l, encFail j = false) →
      write_clips audio spc output_dir base encFail l
        = (l.map (fun i =>
              Event.writeWav (output_dir ++ "/" ++ clip_filename base i)
                (clip_data audio spc i)),
           Except.ok (l.map (fun i => output_dir ++ "/" ++ clip_filename base i))) := by
  intro l
  induction l with
  | nil => intro _; rfl
  | cons i rest ih =>
      intro h
      have hi : encFail i = false := h i (List.mem_cons_self i rest)
      have hrest : ∀ j ∈ rest, encFail j = false := fun j hj =>
        h j (List.mem_cons_of_mem i hj)
      unfold write_clips
      rw [hi]
      simp only [Bool.false_eq_true, if_false, ih hrest, List.map_cons]
      rfl

/-- The writing loop when the first failing index is `k`: the indices before
`k` are written in order, then the loop aborts with the encode error. -/
lemma write_clips_fail (audio : List Sample) (spc : ℕ) (output_dir base : String)
    (encFail : ℕ → Bool) (k : ℕ) (hk : encFail k = true) :
    ∀ (l1 l2 : List ℕ), (∀ j ∈ l1, encFail j = false) →
      write_clips audio spc output_dir base encFail (l1 ++ k :: l2)
        = (l1.map (fun i =>
              Event.writeWav (output_dir ++ "/" ++ clip_filename base i)
                (clip_data audio spc i)),
           Except.error SplitError.encodeError) := by
  intro l1
  induction l1 with
  | nil =>
      intro l2 _
      unfold write_clips
      rw [List.nil_append]
      simp [hk]
  | cons i rest ih =>
      intro l2 h
      have hi : encFail i = false := h i (List.mem_cons_self i rest)
      have hrest : ∀ j ∈ rest, encFail j = false := fun j hj =>
        h j (List.mem_cons_of_mem i hj)
      rw [List.cons_append]
      unfold write_clips
      rw [hi]
      simp only [Bool.false_eq_true, if_false, ih l2 hrest, List.map_cons]
      rfl

end PartitionLemmas

section WitnessInputs

/-- A concrete 3-sample decoded buffer used to instantiate the theorems. -/
def testAudio : List Sample := [1, 2, 3]

/-- A concrete MP3 extension. -/
def testExt : String := ".mp3"

/-- A concrete non-MP3 extension. -/
def badExt : String := ".wav"

/-- A concrete input path. -/
def testFile : String := "track.mp3"

/-- A concrete output directory. -/
def testDir : String := "output_clips"

/-- A concrete base filename (`input_path.stem`). -/
def testBase : String := "track"

end WitnessInputs

/-- C1: for every audio buffer of length `L` and every positive
`sampleCount`, the number of clips produced by the partitioner equals
`ceil(L / sampleCount)`, and when `L > 0` the final clip's raw (unpadded)
length equals `L - (clipCount - 1) * sampleCount`. -/
theorem clip_count_law (audio : List Sample) (spc : ℕ) (hspc : 0 < spc) :
    num_clips audio.length spc = specClipCount audio.length spc ∧
    (0 < audio.length →
      (clip_raw audio spc (num_clips audio.length spc - 1)).length
        = audio.length - (num_clips audio.length spc - 1) * spc) := by
  constructor
  · exact num_clips_eq_ceil audio.length spc hspc
  · intro hL
    rw [clip_raw_length, num_clips_pos_eq audio.length spc hL hspc]
    simp only [Nat.add_sub_cancel]
    have h1 : audio.length - 1 < (audio.length - 1) / spc * spc + spc :=
      Nat.lt_div_mul_add hspc
    omega

theorem clip_count_law_witness :
    0 < 2 ∧
      (num_clips testAudio.length 2 = specClipCount testAudio.length 2 ∧
        (0 < testAudio.length →
          (clip_raw testAudio 2 (num_clips testAudio.length 2 - 1)).length
            = testAudio.length - (num_clips testAudio.length 2 - 1) * 2)) :=
  ⟨by decide, clip_count_law testAudio 2 (by decide)⟩

/-- C2: every clip produced by the partitioner, for every buffer and every
positive `sampleCount`, has length exactly `sampleCount`, including the
final clip, whose tail is padded to reach that length. -/
theorem clip_length_invariant (audio : List Sample) (spc : ℕ) (hspc : 0 < spc)
    (i : ℕ) : (clip_data audio spc i).length = spc := by
  rw [clip_data_eq, List.length_append, List.length_replicate]
  have h := clip_raw_length audio spc i
  omega

theorem clip_length_invariant_witness :
    0 < 2 ∧ (clip_data testAudio 2 1).length = 2 :=
  ⟨by decide, clip_length_invariant testAudio 2 (by decide) 1⟩

/-- C3: whenever a position of a clip lies beyond its raw slice (possible
only when the slice is shorter than `sampleCount`), the sample stored there
is exactly zero, and the raw prefix of the clip is carried over unchanged —
zero-padding is the only transformation applied to sample values. -/
theorem padding_zero_only (audio : List Sample) (spc i j : ℕ)
    (hj : (clip_raw audio spc i).length ≤ j) (hjs : j < spc) :
    (clip_data audio spc i)[j]? = some 0 ∧
    (clip_data audio spc i).take (clip_raw audio spc i).length
      = clip_raw audio spc i := by
  constructor
  · rw [clip_data_eq, List.getElem?_append_right hj, List.getElem?_replicate,
      if_pos (by omega)]
  · rw [clip_data_eq]
    exact List.take_left _ _

theorem padding_zero_only_witness :
    ((clip_raw testAudio 2 1).length ≤ 1 ∧ 1 < 2) ∧
      ((clip_data testAudio 2 1)[1]? = some 0 ∧
        (clip_data testAudio 2 1).take (clip_raw testAudio 2 1).length
          = clip_raw testAudio 2 1) :=
  ⟨⟨by decide, by decide⟩, padding_zero_only testAudio 2 1 1 (by decide) (by decide)⟩

/-- C4: for every buffer and every positive `sampleCount`, concatenating all
produced clips in index order and truncating to the buffer's length
reconstructs the original buffer exactly. -/
theorem roundtrip_concat (audio : List Sample) (spc : ℕ) (hspc : 0 < spc) :
    ((partition_clips audio spc).flatten).take audio.length = audio := by
  unfold partition_clips
  rw [flatten_partition spc hspc (num_clips audio.length spc) audio rfl]
  exact List.take_left _ _

theorem roundtrip_concat_witness :
    0 < 2 ∧ ((partition_clips testAudio 2).flatten).take testAudio.length
      = testAudio :=
  ⟨by decide, roundtrip_concat testAudio 2 (by decide)⟩

/-- C5: the partitioning is a pure deterministic function of the buffer
contents, the clip duration and the sample rate: identical inputs yield the
identical sequence of clips, padding included. -/
theorem partition_deterministic (a1 a2 : List Sample) (d1 d2 r1 r2 : ℕ)
    (ha : a1 = a2) (hd : d1 = d2) (hr : r1 = r2) :
    partition_clips a1 (samples_per_clip d1 r1)
      = partition_clips a2 (samples_per_clip d2 r2) := by
  subst ha
  subst hd
  subst hr
  rfl

theorem partition_deterministic_witness :
    (testAudio = testAudio ∧ 1 = 1 ∧ 2 = 2) ∧
      partition_clips testAudio (samples_per_clip 1 2)
        = partition_clips testAudio (samples_per_clip 1 2) :=
  ⟨⟨rfl, rfl, rfl⟩, partition_deterministic testAudio testAudio 1 1 2 2 rfl rfl rfl⟩

/-- C6: for every clip at 0-based index `i` (in a run where no write fails),
the file written for it — the `(i + 2)`-nd event, after the directory
creation and the decode — is placed in the output directory under the name
`<base>_clip_<i+1 zero-padded to 3 digits>.wav`, and the returned manifest
lists those paths in index order. -/
theorem clip_filename_law (ext input_file : String) (audio : List Sample)
    (output_dir : String) (clip_duration sample_rate : ℕ) (base : String)
    (encFail : ℕ → Bool) (i : ℕ)
    (hext : str_lower ext = ".mp3")
    (hok : ∀ j, encFail j = false)
    (hi : i < num_clips audio.length (samples_per_clip clip_duration sample_rate)) :
    (convert_mp3_to_wav_clips true ext input_file audio output_dir
        clip_duration sample_rate base encFail).1[i + 2]?
      = some (Event.writeWav
          (output_dir ++ "/" ++ (base ++ "_clip_" ++ zfill3 (i + 1) ++ ".wav"))
          (clip_data audio (samples_per_clip clip_duration sample_rate) i)) ∧
    (convert_mp3_to_wav_clips true ext input_file audio output_dir
        clip_duration sample_rate base encFail).2
      = Except.ok ((List.range (num_clips audio.length
            (samples_per_clip clip_duration sample_rate))).map
          (fun j => output_dir ++ "/" ++ (base ++ "_clip_" ++ zfill3 (j + 1) ++ ".wav"))) := by
  unfold convert_mp3_to_wav_clips
  rw [if_neg (by simp), if_neg (by simp [hext])]
  dsimp only
  rw [write_clips_ok audio (samples_per_clip clip_duration sample_rate)
    output_dir base encFail
    (List.range (num_clips audio.length (samples_per_clip clip_duration sample_rate)))
    (fun j _ => hok j)]
  constructor
  · simp only [List.getElem?_cons_succ,
      List.getElem?_map (fun i =>
        Event.writeWav (output_dir ++ "/" ++ clip_filename base i)
          (clip_data audio (samples_per_clip clip_duration sample_rate) i)),
      List.getElem?_range hi, Option.map_some']
    rfl
  · rfl

theorem clip_filename_law_witness :
    (str_lower testExt = ".mp3" ∧
        0 < num_clips testAudio.length (samples_per_clip 1 2)) ∧
      ((convert_mp3_to_wav_clips true testExt testFile testAudio testDir
          1 2 testBase (fun _ => false)).1[0 + 2]?
        = some (Event.writeWav
            (testDir ++ "/" ++ (testBase ++ "_clip_" ++ zfill3 (0 + 1) ++ ".wav"))
            (clip_data testAudio (samples_per_clip 1 2) 0)) ∧
      (convert_mp3_to_wav_clips true testExt testFile testAudio testDir
          1 2 testBase (fun _ => false)).2
        = Except.ok ((List.range (num_clips testAudio.length
              (samples_per_clip 1 2))).map
            (fun j => testDir ++ "/" ++ (testBase ++ "_clip_" ++ zfill3 (j + 1) ++ ".wav")))) :=
  ⟨⟨by decide, by decide⟩,
    clip_filename_law testExt testFile testAudio testDir 1 2 testBase
      (fun _ => false) 0 (by decide) (fun _ => rfl) (by decide)⟩

/-- C7: when the input file does not exist, the run raises
`FileNotFoundError` (the spec's `InvalidInputError`) with an empty event
trace: the output directory is not created, no decode is attempted, and no
file is written. -/
theorem missing_input_aborts (input_exists : Bool) (ext input_file : String)
    (audio : List Sample) (output_dir : String) (clip_duration sample_rate : ℕ)
    (base : String) (encFail : ℕ → Bool) (h : input_exists = false) :
    convert_mp3_to_wav_clips input_exists ext input_file audio output_dir
        clip_duration sample_rate base encFail
      = ([], Except.error SplitError.fileNotFoundError) := by
  subst h
  rfl

theorem missing_input_aborts_witness :
    false = false ∧
      convert_mp3_to_wav_clips false testExt testFile testAudio testDir 10 16000
          testBase (fun _ => false)
        = ([], Except.error SplitError.fileNotFoundError) :=
  ⟨rfl, missing_input_aborts false testExt testFile testAudio testDir 10 16000
    testBase (fun _ => false) rfl⟩

/-- C8: with a valid, existing MP3 input and positive configuration, a
decoded buffer of length 0 yields zero clips: no file is written, the
manifest is the empty list, and the only events are the directory creation
and the decode — the output directory is still created. -/
theorem empty_buffer_run (ext input_file output_dir base : String)
    (clip_duration sample_rate : ℕ) (encFail : ℕ → Bool)
    (hext : str_lower ext = ".mp3")
    (hcd : 0 < clip_duration) (hsr : 0 < sample_rate) :
    convert_mp3_to_wav_clips true ext input_file [] output_dir clip_duration
        sample_rate base encFail
      = ([Event.mkdirParents output_dir, Event.decodeAudio input_file],
         Except.ok []) := by
  unfold convert_mp3_to_wav_clips
  rw [if_neg (by simp), if_neg (by simp [hext])]
  dsimp only
  have hspc : 0 < samples_per_clip clip_duration sample_rate :=
    Nat.mul_pos hcd hsr
  have h0 : num_clips ([] : List Sample).length
      (samples_per_clip clip_duration sample_rate) = 0 := by
    simp only [List.length_nil]
    exact num_clips_zero _ hspc
  rw [h0]
  rfl

theorem empty_buffer_run_witness :
    (str_lower testExt = ".mp3" ∧ 0 < 10 ∧ 0 < 16000) ∧
      convert_mp3_to_wav_clips true testExt testFile [] testDir 10 16000
          testBase (fun _ => false)
        = ([Event.mkdirParents testDir, Event.decodeAudio testFile],
           Except.ok []) :=
  ⟨⟨by decide, by decide, by decide⟩,
    empty_buffer_run testExt testFile testDir testBase 10 16000
      (fun _ => false) (by decide) (by decide) (by decide)⟩

/-- C9: clips are encoded strictly sequentially in ascending index order
starting at 0; if the write of clip `k` is the first to fail, the run
aborts with the encode error, the trace ends with exactly the writes of
clips `0..k-1` in order (they stand — no rollback event exists), and no
clip with index at least `k` is written. -/
theorem encode_failure_aborts (ext input_file : String) (audio : List Sample)
    (output_dir base : String) (clip_duration sample_rate : ℕ)
    (encFail : ℕ → Bool) (k : ℕ)
    (hext : str_lower ext = ".mp3")
    (hk : encFail k = true)
    (hmin : ∀ j < k, encFail j = false)
    (hkn : k < num_clips audio.length (samples_per_clip clip_duration sample_rate)) :
    convert_mp3_to_wav_clips true ext input_file audio output_dir clip_duration
        sample_rate base encFail
      = (Event.mkdirParents output_dir :: Event.decodeAudio input_file ::
          (List.range k).map (fun i =>
            Event.writeWav (output_dir ++ "/" ++ clip_filename base i)
              (clip_data audio (samples_per_clip clip_duration sample_rate) i)),
         Except.error SplitError.encodeError) := by
  obtain ⟨l2, hdecomp⟩ :
      ∃ l2, List.range (num_clips audio.length
          (samples_per_clip clip_duration sample_rate))
        = List.range k ++ k :: l2 := by
    refine ⟨(List.range (num_clips audio.length
        (samples_per_clip clip_duration sample_rate) - k - 1)).map
          (fun j => k + 1 + j), ?_⟩
    rw [show num_clips audio.length (samples_per_clip clip_duration sample_rate)
        = k + (num_clips audio.length (samples_per_clip clip_duration sample_rate) - k)
      from by omega, List.range_add]
    congr 1
    rw [show num_clips audio.length (samples_per_clip clip_duration sample_rate) - k
        = 1 + (num_clips audio.length (samples_per_clip clip_duration sample_rate) - k - 1)
      from by omega, List.range_add]
    simp [List.map_map, Function.comp, Nat.add_assoc, List.range_succ]
  unfold convert_mp3_to_wav_clips
  rw [if_neg (by simp), if_neg (by simp [hext])]
  dsimp only
  rw [hdecomp, write_clips_fail audio (samples_per_clip clip_duration sample_rate)
    output_dir base encFail k hk (List.range k) l2
    (fun j hj => hmin j (List.mem_range.mp hj))]

theorem encode_failure_aborts_witness :
    (str_lower testExt = ".mp3" ∧ ((fun j => j == 1) 1 = true) ∧
        (∀ j < 1, (fun j => j == 1) j = false) ∧
        1 < num_clips testAudio.length (samples_per_clip 1 1)) ∧
      convert_mp3_to_wav_clips true testExt testFile testAudio testDir 1 1
          testBase (fun j => j == 1)
        = (Event.mkdirParents testDir :: Event.decodeAudio testFile ::
            (List.range 1).map (fun i =>
              Event.writeWav (testDir ++ "/" ++ clip_filename testBase i)
                (clip_data testAudio (samples_per_clip 1 1) i)),
           Except.error SplitError.encodeError) :=
  ⟨⟨by decide, by decide, by decide, by decide⟩,
    encode_failure_aborts testExt testFile testAudio testDir testBase 1 1
      (fun j => j == 1) 1 (by decide) (by decide) (by decide) (by decide)⟩

/-- C10: when the input path exists but its extension, lowercased, is not
`.mp3`, the run raises `ValueError` (the spec's `UnsupportedFormatError`)
with an empty event trace: the output directory is not created, no decode
is attempted, and the filesystem is untouched. -/
theorem wrong_extension_aborts (ext input_file : String) (audio : List Sample)
    (output_dir : String) (clip_duration sample_rate : ℕ) (base : String)
    (encFail : ℕ → Bool) (hext : str_lower ext ≠ ".mp3") :
    convert_mp3_to_wav_clips true ext input_file audio output_dir
        clip_duration sample_rate base encFail
      = ([], Except.error SplitError.valueError) := by
  unfold convert_mp3_to_wav_clips
  rw [if_neg (by simp), if_pos hext]

theorem wrong_extension_aborts_witness :
    str_lower badExt ≠ ".mp3" ∧
      convert_mp3_to_wav_clips true badExt testFile testAudio testDir 10 16000
          testBase (fun _ => false)
        = ([], Except.error SplitError.valueError) :=
  ⟨by decide, wrong_extension_aborts badExt testFile testAudio testDir 10 16000
    testBase (fun _ => false) (by decide)⟩

end Mp3Splitter
